import Mathlib

/-!
Verification of the interrupt-vector-to-notification binding subsystem of
`drivers/uio/uio_pci_generic.c` (UIO generic PCI driver with MSI-X eventfd
binding).

The driver's own code (`map_msix_eventfd`, `pci_generic_init_msix`,
`irqhandler`, `probe`, `remove`, `uio_msix_handler`) is embedded shallowly:
machine state is a record of the `uio_msix_info` arrays plus the kernel-side
interrupt-registration and device-configuration facts the code manipulates
through kernel primitives.  Kernel primitives that are not part of the file
(`eventfd_ctx_fdget`, `request_irq`, `pci_enable_msix_exact`,
`pci_check_and_mask_intx`, ...) are modelled from the specification, as noted
on each definition.  Calls with externally visible ordering significance
(`free_irq`, `eventfd_ctx_put`, `request_irq`, `pci_disable_msi`) are recorded
in an event trace so that ordering claims can be stated.
-/

namespace UioPciGeneric

/-- An eventfd context (`struct eventfd_ctx *`), identified abstractly. -/
abbrev Ctx := Nat

/-- Externally visible calls issued by the driver, in program order. -/
inductive Ev where
  | freeIrq (irq : Nat) (ctx : Ctx)
  | ctxPut (ctx : Ctx)
  | fdGet (fd : Int)
  | requestIrq (irq : Nat) (ctx : Ctx)
  | disableMsi
  | disableMsix
  deriving DecidableEq, Repr

/-- The driver state for one device: the `uio_msix_info` arrays
(`entries[i].vector` as `entries`, `evts`, `nvecs`), together with the
kernel-side facts the code manipulates: `registered i` is the eventfd
context the slot's irq line is currently registered with (`request_irq`
handler argument), if any, and `msixEnabled` is whether vector delivery
is configured at the device. -/
structure GDev where
  entries : List Nat
  evts : List (Option Ctx)
  nvecs : Int
  registered : List (Option Ctx)
  msixEnabled : Bool
  deriving DecidableEq, Repr

/-- Well-formed state: the parallel arrays have length `nvecs`
(as allocated by `pci_generic_init_msix`). -/
def GDev.wf (g : GDev) : Prop :=
  g.entries.length = g.evts.length ∧ g.registered.length = g.evts.length ∧
    g.nvecs = (g.evts.length : Int)

instance (g : GDev) : Decidable g.wf := by
  unfold GDev.wf; infer_instance

/-- Modelled from the spec: the kernel environment of the control path.
`fdget` is `eventfd_ctx_fdget` (fallible lookup of an externally supplied
identifier); `reqirq` is the result of `request_irq` (0 = success);
`assignVec` gives the hardware vector identifiers filled into
`entries[i].vector` by `pci_enable_msix_exact`; `msixAvail` is how many
vectors the platform can grant (the all-or-nothing grant bound);
the booleans and codes model allocation and registration outcomes. -/
structure Env where
  fdget : Int → Option Ctx
  reqirq : Nat → Ctx → Int
  assignVec : Nat → Nat
  msixAvail : Nat
  kallocBufOk : Bool
  kallocGdevOk : Bool
  enableDevErr : Int
  uioRegisterErr : Int

/-- Result of `map_msix_eventfd`: either a C return (`code`, post-state and
the trace of externally visible calls), or an out-of-bounds array access
(undefined behaviour: the code indexed `entries`/`evts` outside the
allocation). -/
inductive MapRes where
  | ret (code : Int) (g : GDev) (tr : List Ev)
  | oob (idx : Int)
  deriving DecidableEq, Repr

/-- Shallow embedding of `map_msix_eventfd` (uio_pci_generic.c lines 61-96).
`fd < 0` disables interrupt delivery (`pci_disable_msi`) and returns 0.
Otherwise the only range check is `vector >= nvecs`; a surviving index is
used directly on `entries` and `evts` (a negative index is an out-of-bounds
access, `MapRes.oob`).  If the slot holds an old context the code does
`free_irq`, then `eventfd_ctx_put`, then clears the slot; then it looks up
the new fd, registers the irq with the new context and stores it. -/
def map_msix_eventfd (env : Env) (g : GDev) (fd : Int) (vector : Int) : MapRes :=
  if fd < 0 then
    .ret 0 { g with msixEnabled := false } [.disableMsi]
  else if vector ≥ g.nvecs then
    .ret (-22) g []
  else if vector < 0 then
    .oob vector
  else
    match g.entries[vector.toNat]?, g.evts[vector.toNat]? with
    | some irq, some slot =>
      let v := vector.toNat
      let p :=
        match slot with
        | some old =>
          (({ g with evts := g.evts.set v none,
                     registered := g.registered.set v none } : GDev),
           [Ev.freeIrq irq old, Ev.ctxPut old])
        | none => (g, ([] : List Ev))
      match env.fdget fd with
      | none => .ret (-22) p.1 (p.2 ++ [Ev.fdGet fd])
      | some evt =>
        if env.reqirq irq evt = 0 then
          .ret 0 { p.1 with evts := p.1.evts.set v (some evt),
                            registered := p.1.registered.set v (some evt) }
            (p.2 ++ [Ev.fdGet fd, Ev.requestIrq irq evt])
        else
          .ret (env.reqirq irq evt) p.1 (p.2 ++ [Ev.fdGet fd, Ev.ctxPut evt])
    | _, _ => .oob vector

/-- Modelled from the spec: delivery of a (possibly synthetic) interrupt for
slot `i`.  One `uio_msix_handler` instance is registered per vector, closed
over the context passed to `request_irq`; firing signals exactly that context
(`eventfd_signal(evt, 1)`).  If no handler is registered for the slot
(`free_irq` was the last call), delivery signals nothing. -/
def deliverVector (g : GDev) (i : Nat) : List Ctx :=
  match g.registered[i]? with
  | some (some c) => [c]
  | _ => []

/-- The PCI device as `probe` sees it: `irq` is `pdev->irq` (0 means no
legacy line), `intxMaskSupported` is `pci_intx_mask_supported`, and
`msixVecCount` is `pci_msix_vec_count` (may be negative when the capability
is absent). -/
structure PDev where
  irq : Nat
  intxMaskSupported : Bool
  msixVecCount : Int
  deriving DecidableEq, Repr

/-- Shallow embedding of `pci_generic_init_msix` (lines 123-152).  Returns
the C return code, whether MSI-X delivery ended up enabled at the device,
and the allocated `msix_info` (as a `GDev`), if any.  `pci_msix_vec_count`
of 0 gives `-EINVAL`; a negative count makes the `kzalloc` size wrap to a
huge `size_t`, so the allocation fails with `-ENOMEM`; then `entry` indices
are filled and `pci_enable_msix_exact` is called with exactly `nvecs`.
`pci_enable_msix_exact` is modelled from the spec: it grants all `nvecs`
vectors or none — if the platform cannot grant that many it releases any
partial grant, leaves delivery disabled and returns `-ENOSPC`; on success
it fills `entries[i].vector` and enables delivery.  On failure the code
frees the buffer (no table remains). -/
def pci_generic_init_msix (env : Env) (pdev : PDev) : Int × Bool × Option GDev :=
  let nvecs := pdev.msixVecCount
  if nvecs = 0 then (-22, false, none)
  else if nvecs < 0 ∨ ¬env.kallocBufOk then (-12, false, none)
  else if nvecs.toNat ≤ env.msixAvail then
    (0, true, some { entries := (List.range nvecs.toNat).map env.assignVec,
                     evts := List.replicate nvecs.toNat none,
                     nvecs := nvecs,
                     registered := List.replicate nvecs.toNat none,
                     msixEnabled := true })
  else (-28, false, none)

/-- Result of `probe`: the C return code, whether the PCI device is left
enabled (`pci_enable_device` / `pci_disable_device`), whether MSI-X vector
delivery is left enabled, the vector table (if one survived), and whether
the legacy-line handler was installed. -/
structure ProbeOut where
  code : Int
  devEnabled : Bool
  msixEnabled : Bool
  table : Option GDev
  legacy : Bool
  deriving DecidableEq, Repr

/-- Shallow embedding of `probe` (lines 190-260).  Enables the device; a
device with a legacy line but no INTx mask support fails with `-ENODEV`
and is disabled again; otherwise either the legacy handler is configured
or `pci_generic_init_msix` runs — whose return value the code only uses
for a log line and then DISCARDS: `err` is overwritten by
`uio_register_device`, so an MSI-X failure does not fail the probe. -/
def probe (env : Env) (pdev : PDev) : ProbeOut :=
  if env.enableDevErr ≠ 0 then
    ⟨env.enableDevErr, false, false, none, false⟩
  else if pdev.irq ≠ 0 ∧ ¬pdev.intxMaskSupported then
    ⟨-19, false, false, none, false⟩
  else if ¬env.kallocGdevOk then
    ⟨-12, false, false, none, false⟩
  else if pdev.irq ≠ 0 then
    if env.uioRegisterErr ≠ 0 then ⟨env.uioRegisterErr, false, false, none, false⟩
    else ⟨0, true, false, none, true⟩
  else
    let r := pci_generic_init_msix env pdev
    if env.uioRegisterErr ≠ 0 then ⟨env.uioRegisterErr, false, r.2.1, none, false⟩
    else ⟨0, true, r.2.1, r.2.2, false⟩

/-- The legacy device's own interrupt state: the pending bit
(`PCI_STATUS_INTERRUPT`) and the INTx disable (mask) bit
(`PCI_COMMAND_INTX_DISABLE`). -/
structure IntxState where
  pending : Bool
  intxMasked : Bool
  deriving DecidableEq, Repr

/-- `IRQ_NONE` / `IRQ_HANDLED`. -/
inductive Irqreturn where
  | none
  | handled
  deriving DecidableEq, Repr

/-- Modelled from the spec: `pci_check_and_mask_intx` inspects the device's
own pending bit; if it is clear it returns false with no state mutated; if
set it atomically masks further INTx delivery at the device and returns
true. -/
def pci_check_and_mask_intx (d : IntxState) : Bool × IntxState :=
  if d.pending then (true, { d with intxMasked := true }) else (false, d)

/-- Shallow embedding of the legacy-line handler `irqhandler` (lines
179-188).  Returns the irqreturn value, the device interrupt state after
the call, and the list of eventfd contexts the handler itself signalled
(always none: the UIO core, not this handler, wakes the user process). -/
def irqhandler (d : IntxState) : Irqreturn × IntxState × List Ctx :=
  let r := pci_check_and_mask_intx d
  if r.1 then (.handled, r.2, []) else (.none, r.2, [])

/-- Shallow embedding of the per-vector handler `uio_msix_handler` (lines
52-58): signals its registration-time context once and returns
`IRQ_HANDLED`. -/
def uio_msix_handler (evt : Ctx) : Irqreturn × List Ctx :=
  (.handled, [evt])

/-- The teardown loop of `remove` (lines 265-275) over the parallel arrays:
for each slot that holds a context, `free_irq` then `eventfd_ctx_put` then
clear the slot; slots without a context are untouched.  Returns the `evts`
array, the registration state, and the call trace after the loop. -/
def removeLoop : List Nat → List (Option Ctx) → List (Option Ctx) →
    List (Option Ctx) × List (Option Ctx) × List Ev
  | irq :: es, some c :: vs, _ :: rs =>
    let p := removeLoop es vs rs
    (none :: p.1, none :: p.2.1, Ev.freeIrq irq c :: Ev.ctxPut c :: p.2.2)
  | _ :: es, none :: vs, r :: rs =>
    let p := removeLoop es vs rs
    (none :: p.1, r :: p.2.1, p.2.2)
  | _, vs, rs => (vs, rs, [])

/-- Shallow embedding of the MSI-X teardown in `remove` (lines 265-281,
the body guarded by `entries != NULL`): runs the unbind loop over every
slot, then `pci_disable_msix`.  (The final `kfree` of the buffer is memory
management outside this model.) -/
def remove_msix (g : GDev) : GDev × List Ev :=
  let p := removeLoop g.entries g.evts g.registered
  ({ g with evts := p.1, registered := p.2.1, msixEnabled := false },
   p.2.2 ++ [Ev.disableMsix])

/-- A trace check: every `ctxPut c` is preceded (anywhere earlier in the
trace) by a `freeIrq _ c` of the same context.  `freed` accumulates the
contexts already deregistered. -/
def putsAfterFree (freed : List Ctx) : List Ev → Bool
  | [] => true
  | .freeIrq _ c :: tr => putsAfterFree (c :: freed) tr
  | .ctxPut c :: tr => freed.contains c && putsAfterFree freed tr
  | _ :: tr => putsAfterFree freed tr

/-- A trace check for the strict two-phase discipline "all `free_irq`
calls happen before all `eventfd_ctx_put` calls": no `freeIrq` may appear
after any `ctxPut`.  `seenPut` records whether a `ctxPut` occurred yet. -/
def noFreeAfterPut (seenPut : Bool) : List Ev → Bool
  | [] => true
  | .ctxPut _ :: tr => noFreeAfterPut true tr
  | .freeIrq _ _ :: tr => !seenPut && noFreeAfterPut seenPut tr
  | _ :: tr => noFreeAfterPut seenPut tr

/-! ## Concrete fixtures used by witnesses and counterexamples -/

/-- Concrete environment: fd 5 resolves to eventfd context 7, irq
registration always succeeds, slot `i` is assigned irq `10 + i`, the
platform can grant 4 vectors, allocations succeed. -/
def envW : Env :=
  ⟨fun fd => if fd = 5 then some 7 else none, fun _ _ => 0,
   fun i => 10 + i, 4, true, true, 0, 0⟩

/-- Concrete environment in which every eventfd lookup fails. -/
def envNoFd : Env :=
  ⟨fun _ => none, fun _ _ => 0, fun i => 10 + i, 4, true, true, 0, 0⟩

/-- One-slot table, slot 0 bound to context 1 and its irq registered. -/
def gOne : GDev := ⟨[10], [some 1], 1, [some 1], true⟩

/-- Two-slot table, slots bound to contexts 1 and 2. -/
def gTwo : GDev := ⟨[10, 11], [some 1, some 2], 2, [some 1, some 2], true⟩

/-- One-slot table with the slot unbound. -/
def gEmpty1 : GDev := ⟨[10], [none], 1, [none], true⟩

/-- A device with no legacy line whose MSI-X vector count (6) exceeds what
the platform can grant under `envW` (4). -/
def pdevC4 : PDev := ⟨0, true, 6⟩

/-! ## Claims -/

/-- C2: the claim says every out-of-range `vector_index` — including every
negative one — gets `-EINVAL` with the table unmutated.  The code checks
only `vector >= nvecs` (line 73); a negative index passes that check and is
used to index `entries`/`evts`, an out-of-bounds access (reaching
`entries[-1]` and the write `evts[-1] = evt`), not an `-EINVAL` return.
Evaluated at table size 1, `vector = -1`, `fd = 3`. -/
theorem uioC2_negative_index_oob :
    map_msix_eventfd envW gEmpty1 3 (-1) = .oob (-1) ∧
    ∀ g tr, map_msix_eventfd envW gEmpty1 3 (-1) ≠ .ret (-22) g tr := by
  refine ⟨by decide, ?_⟩
  intro g tr h
  have : MapRes.oob (-1) = MapRes.ret (-22) g tr := by
    rw [← h]; decide
  cases this

/-- C9: a negative `fd` (the disable sentinel) makes `map_msix_eventfd`
call `pci_disable_msi` (modelled: vector delivery deconfigured), return 0,
and leave every part of the vector table — slots, hardware vector
identifiers, registrations, `nvecs` — untouched, whatever `vector` was
passed (the index is never compared or used). -/
theorem uioC9_disable_sentinel (env : Env) (g : GDev) (fd vector : Int)
    (hfd : fd < 0) :
    map_msix_eventfd env g fd vector =
      .ret 0 { g with msixEnabled := false } [.disableMsi] := by
  unfold map_msix_eventfd
  rw [if_pos hfd]

/-- C9 witness: disable at `fd = -1` with a wildly out-of-range index 99
still returns 0, touches no slot, and emits only `pci_disable_msi`. -/
theorem uioC9_witness :
    map_msix_eventfd envW gOne (-1) 99 =
      .ret 0 { gOne with msixEnabled := false } [.disableMsi] :=
  uioC9_disable_sentinel envW gOne (-1) 99 (by decide)

/-- C7: the legacy-line handler returns `IRQ_NONE` with no state mutated
when the device's pending bit is clear, and masks the device and returns
`IRQ_HANDLED` when it is set; in both cases it signals no notification
handle itself. -/
theorem uioC7_legacy_handler (d : IntxState) :
    (d.pending = false → irqhandler d = (.none, d, [])) ∧
    (d.pending = true →
      irqhandler d = (.handled, { d with intxMasked := true }, [])) := by
  constructor <;> intro h <;>
    simp [irqhandler, pci_check_and_mask_intx, h]

/-- C7 witness: concrete pending-clear and pending-set devices. -/
theorem uioC7_witness :
    irqhandler ⟨false, false⟩ = (.none, ⟨false, false⟩, []) ∧
    irqhandler ⟨true, false⟩ = (.handled, ⟨true, true⟩, []) :=
  ⟨(uioC7_legacy_handler ⟨false, false⟩).1 rfl,
   (uioC7_legacy_handler ⟨true, false⟩).2 rfl⟩

/-- C8: a device that reports a legacy line (`irq ≠ 0`) but no INTx
mask support fails `probe` with `-ENODEV`, and afterwards the device is
disabled again (no hardware resource left enabled, no table, no handler). -/
theorem uioC8_no_intx_mask_refused (env : Env) (pdev : PDev)
    (henable : env.enableDevErr = 0) (hirq : pdev.irq ≠ 0)
    (hmask : pdev.intxMaskSupported = false) :
    probe env pdev = ⟨-19, false, false, none, false⟩ := by
  unfold probe
  rw [henable]
  simp [hirq, hmask]

/-- C8 witness: concrete legacy device without INTx masking under `envW`. -/
theorem uioC8_witness :
    probe envW ⟨7, false, 3⟩ = ⟨-19, false, false, none, false⟩ :=
  uioC8_no_intx_mask_refused envW ⟨7, false, 3⟩ rfl (by decide) rfl

/-- C4: the claim says a failed vector-table allocation fails the probe
with the originating error.  In the code `err` from
`pci_generic_init_msix` is only used for a log line and is then
overwritten by `uio_register_device`'s result (line 242), so with a
no-legacy-line device asking for 6 vectors when only 4 are grantable,
`pci_generic_init_msix` fails with `-ENOSPC` yet `probe` returns 0 and
completes the claim with no interrupt mechanism configured at all. -/
theorem uioC4_msix_error_discarded :
    pci_generic_init_msix envW pdevC4 = (-28, false, none) ∧
    probe envW pdevC4 = ⟨0, true, false, none, false⟩ := by
  decide

/-- C5: for a valid vector count `N > 0` (and the table buffer allocation
succeeding), `pci_generic_init_msix` asks the platform for exactly `N`
vectors: if the platform can grant them all, the result is a table of
exactly `N` slots, every notification handle initially empty, delivery
enabled; if the platform can grant fewer than `N`, the whole allocation
fails (`-ENOSPC`), no table remains and vector delivery is left disabled
(the modelled `pci_enable_msix_exact` releases any partial grant). -/
theorem uioC5_alloc_all_or_nothing (env : Env) (pdev : PDev) (N : Nat)
    (hN : pdev.msixVecCount = (N : Int)) (hpos : 0 < N)
    (halloc : env.kallocBufOk = true) :
    (N ≤ env.msixAvail →
      ∃ g, pci_generic_init_msix env pdev = (0, true, some g) ∧
        g.evts = List.replicate N none ∧
        g.evts.length = N ∧ g.entries.length = N ∧
        g.nvecs = (N : Int) ∧ g.wf) ∧
    (env.msixAvail < N →
      pci_generic_init_msix env pdev = (-28, false, none)) := by
  unfold pci_generic_init_msix
  rw [hN]
  have h0 : ¬((N : Int) = 0) := by
    simpa using hpos.ne'
  have h1 : ¬((N : Int) < 0 ∨ ¬env.kallocBufOk) := by
    simp [halloc, not_lt.mpr (Int.natCast_nonneg N)]
  rw [if_neg h0, if_neg h1, Int.toNat_natCast]
  constructor
  · intro hle
    rw [if_pos hle]
    exact ⟨_, rfl, rfl, by simp, by simp, rfl, by simp [GDev.wf]⟩
  · intro hlt
    rw [if_neg (not_le.mpr hlt)]

/-- C5 witness: `envW` can grant 4 vectors; a device reporting 3 vectors
gets a 3-slot table with all slots unbound, and nothing else. -/
theorem uioC5_witness :
    ((3 ≤ envW.msixAvail →
      ∃ g, pci_generic_init_msix envW ⟨0, true, 3⟩ = (0, true, some g) ∧
        g.evts = List.replicate 3 none ∧
        g.evts.length = 3 ∧ g.entries.length = 3 ∧
        g.nvecs = (3 : Int) ∧ g.wf) ∧
    (envW.msixAvail < 3 →
      pci_generic_init_msix envW ⟨0, true, 3⟩ = (-28, false, none))) :=
  uioC5_alloc_all_or_nothing envW ⟨0, true, 3⟩ 3 rfl (by decide) rfl

/-- C1: rebinding a slot that holds a bound handle `old` to a resolvable
new handle issues, in this strict order, `free_irq` for the slot (with the
old context), then `eventfd_ctx_put(old)`, then the new-handle lookup and
`request_irq` with the new context — the trace equality fixes the order —
and after the call returns the slot and its registration hold exactly the
new context, so a (synthetic or hardware) interrupt on that vector signals
only the new handle, never the superseded one. -/
theorem uioC1_rebind_order (env : Env) (g : GDev) (fd : Int) (v irq : Nat)
    (old : Ctx)
    (hwf : g.wf)
    (hfd : 0 ≤ fd)
    (hirq : g.entries[v]? = some irq)
    (hslot : g.evts[v]? = some (some old)) :
    (∀ nw, env.fdget fd = some nw → env.reqirq irq nw = 0 →
      ∃ g', map_msix_eventfd env g fd (v : Int) =
          .ret 0 g'
            [.freeIrq irq old, .ctxPut old, .fdGet fd, .requestIrq irq nw] ∧
        g'.evts[v]? = some (some nw) ∧
        g'.registered[v]? = some (some nw) ∧
        deliverVector g' v = [nw]) ∧
    (∀ code g' tr, map_msix_eventfd env g fd (v : Int) = .ret code g' tr →
      tr.take 2 = [.freeIrq irq old, .ctxPut old] ∧
      (env.fdget fd ≠ some old → old ∉ deliverVector g' v)) := by
  have hvlen : v < g.evts.length := (List.getElem?_eq_some.mp hslot).1
  have hrlen : v < g.registered.length := by rw [hwf.2.1]; exact hvlen
  have hv : ¬((v : Int) ≥ g.nvecs) := by
    rw [hwf.2.2]
    exact not_le.mpr (by exact_mod_cast hvlen)
  have hnneg : ¬((v : Int) < 0) := not_lt.mpr (Int.natCast_nonneg v)
  have hcleared :
      deliverVector
        { g with evts := g.evts.set v none,
                 registered := g.registered.set v none } v = [] := by
    unfold deliverVector
    rw [List.getElem?_set_eq_of_lt _ (by simpa using hrlen)]
  constructor
  · intro nw hget hreq
    refine ⟨{ g with evts := (g.evts.set v none).set v (some nw),
                     registered := (g.registered.set v none).set v (some nw) },
            ?_, ?_, ?_, ?_⟩
    · unfold map_msix_eventfd
      rw [if_neg (not_lt.mpr hfd), if_neg hv, if_neg hnneg]
      simp [Int.toNat_natCast, hirq, hslot, hget, hreq]
    · rw [List.set_set]
      exact List.getElem?_set_eq_of_lt _ (by simpa using hvlen)
    · rw [List.set_set]
      exact List.getElem?_set_eq_of_lt _ (by simpa using hrlen)
    · unfold deliverVector
      rw [List.set_set, List.getElem?_set_eq_of_lt _ (by simpa using hrlen)]
  · intro code g' tr h
    unfold map_msix_eventfd at h
    rw [if_neg (not_lt.mpr hfd), if_neg hv, if_neg hnneg] at h
    simp only [Int.toNat_natCast, hirq, hslot] at h
    rcases hget : env.fdget fd with _ | evt <;> simp only [hget] at h
    · injection h with h1 h2 h3
      subst h2; subst h3
      exact ⟨rfl, fun _ => by simp [hcleared]⟩
    · by_cases hr : env.reqirq irq evt = 0
      · rw [if_pos hr] at h
        injection h with h1 h2 h3
        subst h2; subst h3
        refine ⟨rfl, fun hne => ?_⟩
        have hevt : old ≠ evt := by
          intro he
          exact hne (by rw [he])
        unfold deliverVector
        rw [List.set_set, List.getElem?_set_eq_of_lt _ (by simpa using hrlen)]
        simpa using hevt
      · rw [if_neg hr] at h
        injection h with h1 h2 h3
        subst h2; subst h3
        exact ⟨rfl, fun _ => by simp [hcleared]⟩

/-- C1 witness: the one-slot table bound to context 1, rebound through
fd 5 (which resolves to context 7) under `envW`: the completed rebind has
the exact trace `free_irq` old, put old, lookup, `request_irq` new, and
every return path leaves the handler unable to signal the old context. -/
theorem uioC1_witness :
    ((∀ nw, envW.fdget 5 = some nw → envW.reqirq 10 nw = 0 →
      ∃ g', map_msix_eventfd envW gOne 5 (0 : Nat) =
          .ret 0 g'
            [.freeIrq 10 1, .ctxPut 1, .fdGet 5, .requestIrq 10 nw] ∧
        g'.evts[0]? = some (some nw) ∧
        g'.registered[0]? = some (some nw) ∧
        deliverVector g' 0 = [nw]) ∧
    (∀ code g' tr, map_msix_eventfd envW gOne 5 (0 : Nat) = .ret code g' tr →
      tr.take 2 = [.freeIrq 10 1, .ctxPut 1] ∧
      (envW.fdget 5 ≠ some 1 → (1 : Ctx) ∉ deliverVector g' 0))) :=
  uioC1_rebind_order envW gOne 5 0 10 1 (by decide) (by decide) rfl rfl

/-- C3 counterexample: the claim says a failed handle lookup leaves the
addressed slot unchanged, the old handle still installed and its reference
not released.  On the one-slot table bound to context 1, with every lookup
failing (`envNoFd`), bind of slot 0 returns `-EINVAL` but the returned
state has the slot EMPTY (not `some 1`), and the trace shows the old
context's interrupt path was deregistered and its reference released
(`freeIrq`, `ctxPut 1`) before the failed lookup. -/
theorem uioC3_counterexample :
    map_msix_eventfd envNoFd gOne 5 0 =
      .ret (-22) ⟨[10], [none], 1, [none], true⟩
        [.freeIrq 10 1, .ctxPut 1, .fdGet 5] ∧
    (⟨[10], [none], 1, [none], true⟩ : GDev).evts[0]? ≠ some (some 1) := by
  decide

/-- C3 amended: for an in-range index whose handle lookup fails, bind
returns `InvalidHandleError` (`-EINVAL`); if the slot was previously
unbound it is left completely unchanged, but if it held a handle, that
handle's interrupt path has already been deregistered and its reference
released, and the slot is left empty. -/
theorem uioC3_lookup_failure (env : Env) (g : GDev) (fd : Int) (v irq : Nat)
    (slot : Option Ctx)
    (hwf : g.wf) (hfd : 0 ≤ fd)
    (hirq : g.entries[v]? = some irq)
    (hslot : g.evts[v]? = some slot)
    (hget : env.fdget fd = none) :
    (slot = none →
      map_msix_eventfd env g fd (v : Int) = .ret (-22) g [.fdGet fd]) ∧
    (∀ old, slot = some old →
      map_msix_eventfd env g fd (v : Int) =
        .ret (-22)
          { g with evts := g.evts.set v none,
                   registered := g.registered.set v none }
          [.freeIrq irq old, .ctxPut old, .fdGet fd]) := by
  have hvlen : v < g.evts.length := (List.getElem?_eq_some.mp hslot).1
  have hv : ¬((v : Int) ≥ g.nvecs) := by
    rw [hwf.2.2]
    exact not_le.mpr (by exact_mod_cast hvlen)
  have hnneg : ¬((v : Int) < 0) := not_lt.mpr (Int.natCast_nonneg v)
  constructor
  · intro hempty
    subst hempty
    unfold map_msix_eventfd
    rw [if_neg (not_lt.mpr hfd), if_neg hv, if_neg hnneg]
    simp [Int.toNat_natCast, hirq, hslot, hget]
  · intro old hold
    subst hold
    unfold map_msix_eventfd
    rw [if_neg (not_lt.mpr hfd), if_neg hv, if_neg hnneg]
    simp [Int.toNat_natCast, hirq, hslot, hget]

/-- C3 witness (for the amended statement): an unbound one-slot table with
a failing lookup is returned `-EINVAL` and left unchanged. -/
theorem uioC3_witness :
    ((none = (none : Option Ctx) →
      map_msix_eventfd envNoFd gEmpty1 5 (0 : Nat) =
        .ret (-22) gEmpty1 [.fdGet 5]) ∧
    (∀ old, (none : Option Ctx) = some old →
      map_msix_eventfd envNoFd gEmpty1 5 (0 : Nat) =
        .ret (-22)
          { gEmpty1 with evts := gEmpty1.evts.set 0 none,
                         registered := gEmpty1.registered.set 0 none }
          [.freeIrq 10 old, .ctxPut old, .fdGet 5])) :=
  uioC3_lookup_failure envNoFd gEmpty1 5 0 10 none (by decide) (by decide)
    rfl rfl rfl

/-- C10: a successful bind (with a real, non-sentinel fd) is local to the
addressed slot: every other slot's bound handle and registration are
unchanged, and the hardware vector identifiers, the table length carrier
`nvecs`, and the device's delivery configuration are all unchanged. -/
theorem uioC10_bind_frame (env : Env) (g g' : GDev) (fd vector : Int)
    (tr : List Ev)
    (hfd : 0 ≤ fd)
    (h : map_msix_eventfd env g fd vector = .ret 0 g' tr) :
    (∀ j, j ≠ vector.toNat →
      g'.evts[j]? = g.evts[j]? ∧ g'.registered[j]? = g.registered[j]?) ∧
    g'.entries = g.entries ∧ g'.nvecs = g.nvecs ∧
    g'.msixEnabled = g.msixEnabled := by
  unfold map_msix_eventfd at h
  rw [if_neg (not_lt.mpr hfd)] at h
  split at h
  · simp at h
  · split at h
    · simp at h
    · split at h
      case _ irq slot hirq hslot =>
        rcases slot with _ | old <;>
          rcases hget : env.fdget fd with _ | evt <;>
            simp only [hget] at h
        · simp at h
        · split at h
          next =>
            injection h with h1 h2 h3
            subst h2
            refine ⟨fun j hj => ⟨?_, ?_⟩, rfl, rfl, rfl⟩ <;>
              simp [List.getElem?_set_ne (Ne.symm hj)]
          next hreqne =>
            injection h with h1 h2 h3
            exact absurd h1 hreqne
        · simp at h
        · split at h
          next =>
            injection h with h1 h2 h3
            subst h2
            refine ⟨fun j hj => ⟨?_, ?_⟩, rfl, rfl, rfl⟩ <;>
              simp [List.getElem?_set_ne (Ne.symm hj)]
          next hreqne =>
            injection h with h1 h2 h3
            exact absurd h1 hreqne
      case _ =>
        simp at h

/-- C10 witness: the concrete rebind of `gOne` through fd 5 under `envW`
leaves (vacuously, every) other slot, the identifiers and the counts
unchanged. -/
theorem uioC10_witness :
    ((∀ j, j ≠ (0 : Int).toNat →
      (⟨[10], [some 7], 1, [some 7], true⟩ : GDev).evts[j]? = gOne.evts[j]? ∧
      (⟨[10], [some 7], 1, [some 7], true⟩ : GDev).registered[j]? =
        gOne.registered[j]?) ∧
    (⟨[10], [some 7], 1, [some 7], true⟩ : GDev).entries = gOne.entries ∧
    (⟨[10], [some 7], 1, [some 7], true⟩ : GDev).nvecs = gOne.nvecs ∧
    (⟨[10], [some 7], 1, [some 7], true⟩ : GDev).msixEnabled =
      gOne.msixEnabled) :=
  uioC10_bind_frame envW gOne ⟨[10], [some 7], 1, [some 7], true⟩ 5 0
    [.freeIrq 10 1, .ctxPut 1, .fdGet 5, .requestIrq 10 7]
    (by decide) (by decide)

/-- In the teardown loop's trace (followed by the final
`pci_disable_msix`), every `ctxPut c` is preceded by a `freeIrq _ c` of
the same context, whatever was already deregistered before. -/
theorem removeLoop_puts_after_free (es : List Nat) :
    ∀ vs rs freed,
      putsAfterFree freed ((removeLoop es vs rs).2.2 ++ [Ev.disableMsix]) =
        true := by
  induction es with
  | nil =>
    intro vs rs freed
    simp [removeLoop, putsAfterFree]
  | cons irq es ih =>
    intro vs rs freed
    rcases vs with _ | ⟨s, vs⟩
    · simp [removeLoop, putsAfterFree]
    · rcases rs with _ | ⟨r, rs⟩
      · rcases s with _ | c <;> simp [removeLoop, putsAfterFree]
      · rcases s with _ | c
        · simpa [removeLoop, putsAfterFree] using ih vs rs freed
        · simpa [removeLoop, putsAfterFree] using ih vs rs (c :: freed)

/-- After the teardown loop (with registrations in sync with the slots),
no slot's interrupt registration remains. -/
theorem removeLoop_registered_cleared (es : List Nat) :
    ∀ vs, es.length = vs.length →
      (removeLoop es vs vs).2.1 = List.replicate vs.length none := by
  induction es with
  | nil =>
    intro vs h
    rcases vs with _ | ⟨s, vs⟩
    · simp [removeLoop]
    · simp at h
  | cons irq es ih =>
    intro vs h
    rcases vs with _ | ⟨s, vs⟩
    · simp at h
    · rcases s with _ | c <;>
        simp [removeLoop, ih vs (by simpa using h), List.replicate_succ]

/-- C6 counterexample: the claim says teardown performs ALL `free_irq`
calls first and only then ALL `eventfd_ctx_put` calls.  On a two-slot
table bound to contexts 1 and 2, the teardown trace interleaves them per
slot — `ctxPut 1` occurs before `freeIrq 11 2` — so the strict two-phase
ordering is violated. -/
theorem uioC6_counterexample :
    (remove_msix gTwo).2 =
      [.freeIrq 10 1, .ctxPut 1, .freeIrq 11 2, .ctxPut 2, .disableMsix] ∧
    noFreeAfterPut false (remove_msix gTwo).2 = false := by
  decide

/-- C6 amended: teardown deregisters each slot's interrupt path
immediately before releasing that slot's handle (per-slot `free_irq` then
`eventfd_ctx_put`, slots processed in order, rather than all `free_irq`
calls before all `eventfd_ctx_put` calls): in the emitted trace every
release is preceded by the deregistration of the same context.  After
teardown completes, no registration remains, so any further (synthetic)
interrupt delivery on any vector signals zero handles. -/
theorem uioC6_teardown (g : GDev) (hreg : g.registered = g.evts)
    (hlen : g.entries.length = g.evts.length) :
    putsAfterFree [] (remove_msix g).2 = true ∧
    ∀ i, deliverVector (remove_msix g).1 i = [] := by
  constructor
  · unfold remove_msix
    exact removeLoop_puts_after_free g.entries g.evts g.registered []
  · intro i
    unfold deliverVector remove_msix
    simp only [hreg]
    rw [removeLoop_registered_cleared g.entries g.evts hlen,
      List.getElem?_replicate]
    by_cases hi : i < g.evts.length <;> simp [hi]

/-- C6 witness (for the amended statement): the two-slot table. -/
theorem uioC6_witness :
    putsAfterFree [] (remove_msix gTwo).2 = true ∧
    ∀ i, deliverVector (remove_msix gTwo).1 i = [] :=
  uioC6_teardown gTwo rfl rfl

end UioPciGeneric
